import Mathlib

/-!
Shallow embedding of the RunwayML Act-Two batch generator
(`src/runway_generator.py`, with the exact-match helper from
`src/gui_selectors.py`).  Python strings are modelled as Lean `String`
(a structure over `List Char`); machine floats used for aspect-ratio
arithmetic are modelled as exact rationals `ℚ` (the float values stored
in the catalog are the same real numbers 16/9, 9/16, ... up to rounding;
none of the comparisons proved here is decided by a float ulp); the
filesystem and the remote API are passed in explicitly as oracle
functions and lists of directory entries.
-/

/-! ## Generic string helpers (Python string semantics) -/

/-- `leadsWith pat l` : `pat` occurs at the very front of `l`. -/
def leadsWith : List Char → List Char → Bool
  | [], _ => true
  | _ :: _, [] => false
  | p :: ps, c :: cs => p = c && leadsWith ps cs

/-- `containsSeq pat l` : `pat` occurs contiguously somewhere in `l`
(Python's `pat in l`). -/
def containsSeq (pat : List Char) : List Char → Bool
  | [] => leadsWith pat []
  | c :: cs => leadsWith pat (c :: cs) || containsSeq pat cs

/-- Index of the first occurrence of `pat` in `l` (Python `str.find`),
`none` when absent. -/
def firstIdxOfSeq (pat : List Char) : List Char → Option Nat
  | [] => if leadsWith pat [] then some 0 else none
  | c :: cs =>
    if leadsWith pat (c :: cs) then some 0
    else (firstIdxOfSeq pat cs).map (· + 1)

/-- Python `str.upper` (ASCII range, which is all the code relies on). -/
def upperStr (s : String) : String := ⟨s.data.map Char.toUpper⟩

/-- Python `str.lower` (ASCII range). -/
def lowerStr (s : String) : String := ⟨s.data.map Char.toLower⟩

/-- Python `needle in hay` on strings. -/
def strContains (needle hay : String) : Bool := containsSeq needle.data hay.data

/-- `strEndsWith suf s` : `s` ends with `suf`
(what `Path.rglob ('*' ++ suf)` tests of a file name). -/
def strEndsWith (suf s : String) : Bool := leadsWith suf.data.reverse s.data.reverse

/-- Helper for `pySplit`: walk the characters, accumulating the current
token reversed; whitespace flushes it. -/
def pySplitAux : List Char → List Char → List String
  | [], cur => if cur.isEmpty then [] else [⟨cur.reverse⟩]
  | c :: cs, cur =>
    if c.isWhitespace then
      (if cur.isEmpty then [] else [⟨cur.reverse⟩]) ++ pySplitAux cs []
    else pySplitAux cs (c :: cur)

/-- Python `str.split()` with no argument: split on whitespace runs,
discarding empty pieces. -/
def pySplit (s : String) : List String := pySplitAux s.data []

/-- `" ".join parts` -/
def joinSpaces : List String → String
  | [] => ""
  | [p] => p
  | p :: ps => p ++ " " ++ joinSpaces ps

/-- Index of the last `'.'` of a name, `none` when there is no dot. -/
def lastDotIdx (l : List Char) : Option Nat :=
  ((List.range l.length).filter (fun i => l.getD i ' ' = '.')).getLast?

/-- Last path component (`pathlib.PurePath.name`): the part after the
last `/` or `\`. -/
def pathBasename (s : String) : String :=
  ⟨((s.data.reverse.takeWhile (fun c => ¬ (c = '/' ∨ c = '\\')))).reverse⟩

/-- `pathlib` `stem` of a path: the final component without its last
extension.  CPython keeps the whole name when the last dot is the first
or the last character of the name. -/
def pyStem (s : String) : String :=
  let name := (pathBasename s).data
  match lastDotIdx name with
  | some i => if 0 < i ∧ i < name.length - 1 then ⟨name.take i⟩ else ⟨name⟩
  | none => ⟨name⟩

/-- `pathlib` `suffix` of a path: `"." ++ ext` of the final component, or
`""` when the name has no proper extension. -/
def pySuffix (s : String) : String :=
  let name := (pathBasename s).data
  match lastDotIdx name with
  | some i => if 0 < i ∧ i < name.length - 1 then ⟨name.drop i⟩ else ""
  | none => ""

/-- Python `str.replace(":", "x")` (a one-character pattern, hence a
character-wise map). -/
def colonToX (s : String) : String :=
  ⟨s.data.map (fun c => if c = ':' then 'x' else c)⟩

/-! ## The ratio catalog (`RunwayActTwoBatchGenerator.AVAILABLE_RATIOS`) -/

/-- The value dict stored under each name of `AVAILABLE_RATIOS`: keys
`api_value`, `width`, `height`, `aspect` — and only those; the `name`
key is *not* part of the stored dict. -/
structure RatioConfig where
  api_value : String
  width : Nat
  height : Nat
  aspect : ℚ
deriving DecidableEq, Repr

/-- `AVAILABLE_RATIOS`, in Python dict insertion (= iteration) order. -/
def AVAILABLE_RATIOS : List (String × RatioConfig) :=
  [ ("16:9", ⟨"1280:720", 1280, 720, 16/9⟩)
  , ("9:16", ⟨"720:1280", 720, 1280, 9/16⟩)
  , ("1:1", ⟨"960:960", 960, 960, 1⟩)
  , ("4:3", ⟨"1104:832", 1104, 832, 4/3⟩)
  , ("3:4", ⟨"832:1104", 832, 1104, 3/4⟩)
  , ("21:9", ⟨"1584:672", 1584, 672, 21/9⟩) ]

/-- A `target_ratio` dict as it flows through `create_act_two_generation`
and `resize_image_smart`.  The `name` field models the optional `"name"`
key: the smart-selection branch builds `{"name": ratio_name,
**ratio_config}` (key present), while the fixed-ratio branch passes the
catalog value dict unchanged (key absent); a Python `["name"]` access on
the latter raises `KeyError`. -/
structure TargetRatio where
  name : Option String
  config : RatioConfig
deriving DecidableEq, Repr

/-! ## `select_best_ratio` (smart aspect-ratio selection) -/

/-- Python `abs` on the exact rationals standing in for the floats. -/
def ratAbs (q : ℚ) : ℚ := if q < 0 then -q else q

/-- The loop body of `select_best_ratio`: carry the best entry so far and
its distance `min_difference`, update on a strictly smaller distance. -/
def select_best_aux (a : ℚ) : List (String × RatioConfig) →
    ((String × RatioConfig) × ℚ) → String × RatioConfig
  | [], (b, _) => b
  | (nm, cfg) :: rest, (b, m) =>
    let difference := ratAbs (a - cfg.aspect)
    if difference < m then select_best_aux a rest ((nm, cfg), difference)
    else select_best_aux a rest (b, m)

/-- `select_best_ratio(image_aspect)`.  The Python loop starts from
`best_ratio = None`, `min_difference = inf`, so its first iteration
always installs the first catalog entry; the embedding therefore starts
the loop from the head of the (non-empty) catalog.  The returned dict is
`{"name": ratio_name, **ratio_config}` — the `name` key is present. -/
def select_best_ratio (a : ℚ) : TargetRatio :=
  match AVAILABLE_RATIOS with
  | [] => ⟨none, ⟨"", 0, 0, 0⟩⟩
  | p :: rest =>
    let w := select_best_aux a rest (p, ratAbs (a - p.2.aspect))
    ⟨some w.1, w.2⟩

/-- The fixed-ratio branch of `create_act_two_generation` (lines
431–440): look the configured name up in `AVAILABLE_RATIOS`; an unknown
name falls back to the 16:9 entry with a warning.  Either way the value
dict is used as-is, so the `name` key is absent. -/
def select_fixed_target (fixed : String) : TargetRatio :=
  match List.lookup fixed AVAILABLE_RATIOS with
  | some cfg => ⟨none, cfg⟩
  | none => ⟨none, ⟨"1280:720", 1280, 720, 16/9⟩⟩

/-! ## Images and `resize_image_smart` -/

/-- A PIL image, abstracted to the data the claims speak about: pixel
dimensions and color mode.  `convert`, `crop` and `resize` are modelled
at this level: `crop (l,t,r,b)` yields an `(r-l) × (b-t)` image and
`resize (w,h)` an image of exactly the requested dimensions, which is
what PIL guarantees for in-bounds boxes and positive sizes. -/
structure PILImage where
  width : Nat
  height : Nat
  mode : String
deriving DecidableEq, Repr

/-- PIL `img.convert('RGB')` when the mode is not already `RGB`. -/
def pilConvertRGB (img : PILImage) : PILImage :=
  if img.mode = "RGB" then img else { img with mode := "RGB" }

/-- PIL `img.crop((left, top, right, bottom))` at dimension level. -/
def pilCrop (img : PILImage) (left top right bottom : Nat) : PILImage :=
  ⟨right - left, bottom - top, img.mode⟩

/-- PIL `img.resize((w, h), LANCZOS)` at dimension level. -/
def pilResize (img : PILImage) (w h : Nat) : PILImage := ⟨w, h, img.mode⟩

/-- The crop box `(left, top, right, bottom)` computed by
`resize_image_smart` (lines 176–198).  `int(..)` on the non-negative
Python floats is `⌊·⌋`. -/
def smartCropBox (w h : Nat) (target_aspect : ℚ) : Nat × Nat × Nat × Nat :=
  if (w : ℚ) / (h : ℚ) > target_aspect then
    -- image is wider than target: crop width, centered
    let new_width := (⌊(h : ℚ) * target_aspect⌋).toNat
    let left := (w - new_width) / 2
    (left, 0, left + new_width, h)
  else
    -- image is taller than target: crop height, centered
    let new_height := (⌊(w : ℚ) / target_aspect⌋).toNat
    let top := (h - new_height) / 2
    (0, top, w, top + new_height)

/-- `resize_image_smart(image_path, target_ratio, temp_folder)`.
`readImage` models `Image.open` (`none` = the open raises).  Returns the
path the Python function returns together with the image that was saved
there (`none` when the `except` branch returned the original path).  A
zero source height raises `ZeroDivisionError` in Python and an absent
`"name"` key raises `KeyError` at the temp-file-name construction; both
are caught by the handler, which returns the original path. -/
def resize_image_smart (readImage : String → Option PILImage)
    (image_path : String) (target : TargetRatio)
    (temp_folder : String := "temp_resized") : String × Option PILImage :=
  match readImage image_path, target.name with
  | some img, some ratio_name =>
    if img.height = 0 then (image_path, none)
    else
      let img := pilConvertRGB img
      let (left, top, right, bottom) :=
        smartCropBox img.width img.height target.config.aspect
      let cropped := pilCrop img left top right bottom
      let resized := pilResize cropped target.config.width target.config.height
      let resized_path :=
        temp_folder ++ "/" ++ pyStem image_path ++ "_" ++ colonToX ratio_name ++ ".jpg"
      (resized_path, some resized)
  | _, _ => (image_path, none)

/-! ## Filename-derived subjects and duplicate detection -/

/-- `extract_name_from_genx_filename(filename)`: split the stem on
whitespace; with at least 3 tokens whose first is `genx` and last is
`self` (case-insensitively), the subject is the space-joined middle
tokens; otherwise `None`. -/
def extract_name_from_genx_filename (filename : String) : Option String :=
  let name_part := pyStem filename
  let parts := pySplit name_part
  match parts with
  | [] => none
  | p0 :: rest =>
    match rest.getLast? with
    | none => none
    | some plast =>
      if 3 ≤ parts.length ∧ lowerStr p0 = "genx" ∧ lowerStr plast = "self" then
        some (joinSpaces rest.dropLast)
      else none

/-- The extension list of `check_existing_videos`. -/
def video_extensions : List String := [".mp4", ".mov", ".avi", ".mkv", ".webm"]

/-- `check_existing_videos(name, downloads_folder)`.  The recursive
directory scan is modelled by `files`, the list of file paths under the
search root; `rglob ('*' ++ ext)` keeps those whose final component ends
with `ext`, and a candidate matches when every whitespace token of
`name`, uppercased, occurs in the uppercased stem. -/
def check_existing_videos (name : String) (files : List String) : Bool :=
  let name_parts := pySplit name
  video_extensions.any (fun ext =>
    files.any (fun vf =>
      strEndsWith ext (pathBasename vf) &&
      name_parts.all (fun part =>
        strContains (upperStr part) (upperStr (pyStem vf)))))

/-! ## Pattern matching (`get_genx_image_files` and
`GUISelectors._matches_pattern`) -/

/-- The character class `[a-z0-9]` of the exact-match regex in
`get_genx_image_files`. -/
def isLowerAlnumChar (c : Char) : Bool :=
  ('a' ≤ c && c ≤ 'z') || ('0' ≤ c && c ≤ '9')

/-- One candidate position of
`re.search(r'(^|[^a-z0-9])' + re.escape(p) + r'([^a-z0-9]|$)', f)`:
the escaped pattern occurs at `i`, preceded by start-of-string or a
character outside `[a-z0-9]`, and followed by end-of-string or such a
character. -/
def regexSegmentHit (pl fl : List Char) (i : Nat) : Bool :=
  (i == 0 || !(isLowerAlnumChar (fl.getD (i - 1) ' '))) &&
  leadsWith pl (fl.drop i) &&
  (i + pl.length == fl.length || !(isLowerAlnumChar (fl.getD (i + pl.length) ' ')))

/-- The `exact_match` branch of `get_genx_image_files` (lines 349–354):
`re.search` of the segment regex over the lowercased file name. -/
def runway_exact_match (search_pattern filename : String) : Bool :=
  let pl := (lowerStr search_pattern).data
  let fl := (lowerStr filename).data
  (List.range (fl.length + 1)).any (fun i => regexSegmentHit pl fl i)

/-- The delimiter class `[-_\s.]` of `GUISelectors._matches_pattern`. -/
def isGuiDelim (c : Char) : Bool :=
  c == '-' || c == '_' || c.isWhitespace || c == '.'

/-- Python `re.split(r'[-_\s.]+', name)`: split on maximal delimiter
runs, keeping the empty pieces that `re.split` produces at the borders
(`"-ab"` gives `["", "ab"]`). -/
def reSplitDelim (l : List Char) : List (List Char) :=
  match h : l.dropWhile (fun c => !(isGuiDelim c)) with
  | [] => [l.takeWhile (fun c => !(isGuiDelim c))]
  | _ :: t =>
    l.takeWhile (fun c => !(isGuiDelim c)) :: reSplitDelim (t.dropWhile isGuiDelim)
termination_by l.length
decreasing_by
  have key : ∀ (p : Char → Bool) (m : List Char),
      (m.dropWhile p).length ≤ m.length := by
    intro p m
    induction m with
    | nil => exact Nat.le_refl _
    | cons a t ih =>
      rw [List.dropWhile_cons]
      split
      · exact Nat.le_trans ih (Nat.le_succ _)
      · exact Nat.le_refl _
  have h1 : (l.dropWhile (fun c => !(isGuiDelim c))).length ≤ l.length :=
    key _ l
  rw [h] at h1
  have h2 : (t.dropWhile isGuiDelim).length ≤ t.length := key _ t
  simp only [List.length_cons] at h1
  omega

/-- Python `str.isalnum` on the ASCII characters the matcher sees. -/
def pyIsAlnum (c : Char) : Bool := c.isAlphanum

/-- `GUISelectors._matches_pattern(filename, pattern, exact_match)`. -/
def gui_matches_pattern (filename search_pattern : String)
    (exact_match : Bool) : Bool :=
  let fl := lowerStr filename
  let pl := lowerStr search_pattern
  if exact_match then
    let name_without_ext : List Char :=
      match lastDotIdx fl.data with
      | some i => fl.data.take i
      | none => fl.data
    if leadsWith ['-'] pl.data || leadsWith ['_'] pl.data then
      match firstIdxOfSeq pl.data name_without_ext with
      | some pos =>
        if 0 < pos then
          let end_pos := pos + pl.data.length
          decide (name_without_ext.length ≤ end_pos) ||
            !(pyIsAlnum (name_without_ext.getD end_pos ' '))
        else false
      | none => false
    else
      (reSplitDelim name_without_ext).any (fun seg => seg == pl.data)
  else
    strContains pl fl

/-- The image-extension set of `get_genx_image_files`. -/
def image_extensions : List String :=
  [".jpg", ".jpeg", ".png", ".bmp", ".gif", ".webp", ".tiff", ".tif"]

/-- `get_genx_image_files(folder_path, search_pattern, exact_match)`.
The folder's file entries are `files` (in `iterdir` order) and the
recursive contents of the downloads folder used by the duplicate check
are `videos`.  An entry is kept when it has an image extension, its
name matches the pattern (substring, or the segment regex in exact
mode), and — when a subject can be derived from the name — no existing
video for that subject is found; a file without a derivable subject is
kept unconditionally. -/
def get_genx_image_files (files videos : List String)
    (search_pattern : String := "genx") (exact_match : Bool := false) :
    List String :=
  files.filter (fun f =>
    image_extensions.contains (lowerStr (pySuffix f)) &&
    (if exact_match then runway_exact_match search_pattern (pathBasename f)
     else strContains (lowerStr search_pattern) (lowerStr (pathBasename f))) &&
    (match extract_name_from_genx_filename (pathBasename f) with
     | some person_name => !(check_existing_videos person_name videos)
     | none => true))

/-! ## The generation client (`create_act_two_generation`) -/

/-- The remote task status as `create_act_two_generation` distinguishes
it: a non-2xx status response, `SUCCEEDED` (with the optional first URL
of `output`), `FAILED`, or any other status string, which keeps the
loop polling. -/
inductive TaskStatus where
  | httpError
  | succeeded (output : Option String)
  | failedStatus
  | running
deriving DecidableEq, Repr

/-- Which exit of the submit-and-poll state machine was taken; each
constructor corresponds to one distinct branch (log message) of the
Python function. -/
inductive PollOutcome where
  | downloaded
  | downloadFailed
  | missingOutput
  | generationFailed
  | pollError
  | timedOut
deriving DecidableEq, Repr

/-- Externally visible effects of one generation, in program order. -/
inductive FxEvent where
  | post (character_uri api_value : String)
  | sleep (seconds : Nat)
  | statusCheck
  | mkdirParents (dir : String)
  | fileWrite (path : String)
deriving DecidableEq, Repr

/-- The oracle environment of one generation: the filesystem reads and
the remote API responses the code consumes. -/
structure GenEnv where
  driverExists : Bool
  driverEncoded : Option String
  readImage : String → Option PILImage
  encodeImage : String → Option String
  postResponse : Option String
  taskStatus : Nat → TaskStatus
  downloadOk : Bool

/-- The two configuration keys `create_act_two_generation` reads to pick
the target ratio (`config.get('aspect_ratio_mode', 'smart')` and
`config.get('fixed_aspect_ratio', '16:9')`). -/
structure GenConfig where
  aspect_ratio_mode : String := "smart"
  fixed_aspect_ratio : String := "16:9"
deriving DecidableEq, Repr

/-- `analyze_image_aspect_ratio` (first component): `width / height`,
with the exception handler (unreadable image, or the zero-height
`ZeroDivisionError`) yielding `(1.0, 0, 0)`. -/
def analyze_image_aspect_ratio (readImage : String → Option PILImage)
    (image_path : String) : ℚ × Nat × Nat :=
  match readImage image_path with
  | some img =>
    if img.height = 0 then (1, 0, 0)
    else ((img.width : ℚ) / (img.height : ℚ), img.width, img.height)
  | none => (1, 0, 0)

def max_wait : Nat := 600

def poll_interval_seconds : Nat := 10

/-- The poll loop (lines 514–566): while `wait_time < max_wait`, sleep
10 s, bump `wait_time` by 10 and check the task; the fuel argument is
the number of remaining iterations, `max_wait / poll_interval` at the
top.  `k` counts the checks already made, indexing `taskStatus`. -/
def poll_for_completion (status : Nat → TaskStatus) (downloadOk : Bool)
    (out_folder out_path : String) : Nat → Nat → PollOutcome × List FxEvent
  | _, 0 => (.timedOut, [])
  | k, fuel + 1 =>
    match status k with
    | .httpError => (.pollError, [.sleep poll_interval_seconds, .statusCheck])
    | .succeeded none =>
      (.missingOutput, [.sleep poll_interval_seconds, .statusCheck])
    | .succeeded (some _) =>
      if downloadOk then
        (.downloaded, [.sleep poll_interval_seconds, .statusCheck,
          .mkdirParents out_folder, .fileWrite out_path])
      else (.downloadFailed, [.sleep poll_interval_seconds, .statusCheck])
    | .failedStatus =>
      (.generationFailed, [.sleep poll_interval_seconds, .statusCheck])
    | .running =>
      ((poll_for_completion status downloadOk out_folder out_path (k + 1) fuel).1,
       .sleep poll_interval_seconds :: .statusCheck ::
         (poll_for_completion status downloadOk out_folder out_path (k + 1) fuel).2)

/-- `create_act_two_generation(character_image_path, output_folder,
config)`: the full per-image pipeline.  Returns the value the Python
function returns (`Some path` only on a completed download) and the
effect trace.  The `match target.name` step models the
`target_ratio['name']` access in the log call at line 443: when the
fixed-ratio branch supplied a dict without the `name` key, that access
raises `KeyError`, the blanket handler at line 568 catches it, and the
function returns `None` before resizing, submitting or writing
anything. -/
def create_act_two_generation (env : GenEnv)
    (character_image_path out_folder : String) (config : GenConfig) :
    Option String × List FxEvent :=
  if !env.driverExists then (none, [])
  else match env.driverEncoded with
  | none => (none, [])
  | some _driver_uri =>
    let target : TargetRatio :=
      if config.aspect_ratio_mode = "smart" then
        select_best_ratio
          (analyze_image_aspect_ratio env.readImage character_image_path).1
      else select_fixed_target config.fixed_aspect_ratio
    match target.name with
    | none => (none, [])
    | some ratio_name =>
      let resized_image_path :=
        (resize_image_smart env.readImage character_image_path target).1
      match env.encodeImage resized_image_path with
      | none => (none, [])
      | some character_uri =>
        let out_path := out_folder ++ "/" ++ pyStem character_image_path
          ++ "_act_two_" ++ colonToX ratio_name ++ ".mp4"
        match env.postResponse with
        | none => (none, [.post character_uri target.config.api_value])
        | some _task_id =>
          let r := poll_for_completion env.taskStatus env.downloadOk
            out_folder out_path 0 (max_wait / poll_interval_seconds)
          ((if r.1 = .downloaded then some out_path else none),
           .post character_uri target.config.api_value :: r.2)

/-! ## The batch orchestrator (`process_all_images`) -/

/-- Observable events of a batch run: one `processed` per image handed
to the generation client, one `delaySleep` per inter-image wait. -/
inductive BatchEvent where
  | processed (image : String)
  | delaySleep (seconds : Int)
deriving DecidableEq, Repr

/-- The counters `process_all_images` accumulates (duplicate counting
aside). -/
structure BatchSummary where
  total_images : Nat
  succeeded : Nat
  failed : Nat
deriving DecidableEq, Repr

/-- The inner loop of `process_all_images` over one folder's eligible
images (lines 650–681): `i` is the 1-based index from `enumerate`, `n`
the folder's image count; a truthy result increments the success
counter, a `None` the failure counter, and the loop continues either
way; after an image with `i < n` and a positive delay, the orchestrator
sleeps. -/
def process_folder_loop (gen : String → Option String) (delay : Int)
    (n : Nat) : Nat → List String → (Nat × Nat) × List BatchEvent
  | _, [] => ((0, 0), [])
  | i, f :: rest =>
    (((if (gen f).isSome then 1 else 0) +
        (process_folder_loop gen delay n (i + 1) rest).1.1,
      (if (gen f).isSome then 0 else 1) +
        (process_folder_loop gen delay n (i + 1) rest).1.2),
     .processed f ::
       ((if i < n ∧ 0 < delay then [.delaySleep delay] else []) ++
         (process_folder_loop gen delay n (i + 1) rest).2))

/-- `process_all_images`, at the orchestration level the claims are
about: `folders` carries, per scanned folder in order, the eligible
image list `get_genx_image_files` returned for it, and `gen` models the
call to `create_act_two_generation` (which catches its own exceptions
and returns `None` on every failure kind). -/
def process_all_images (gen : String → Option String)
    (folders : List (List String)) (delay : Int) :
    BatchSummary × List BatchEvent :=
  match folders with
  | [] => (⟨0, 0, 0⟩, [])
  | files :: rest =>
    (⟨files.length + (process_all_images gen rest delay).1.total_images,
      (process_folder_loop gen delay files.length 1 files).1.1 +
        (process_all_images gen rest delay).1.succeeded,
      (process_folder_loop gen delay files.length 1 files).1.2 +
        (process_all_images gen rest delay).1.failed⟩,
     (process_folder_loop gen delay files.length 1 files).2 ++
       (process_all_images gen rest delay).2)

/-! ## Event counters -/

def isProcessedEvent : BatchEvent → Bool
  | .processed _ => true
  | .delaySleep _ => false

def isSleepEvent : BatchEvent → Bool
  | .delaySleep _ => true
  | .processed _ => false

def isStatusCheck : FxEvent → Bool
  | .statusCheck => true
  | .post _ _ => false
  | .sleep _ => false
  | .mkdirParents _ => false
  | .fileWrite _ => false

def fxSleepSeconds : FxEvent → Nat
  | .sleep s => s
  | .statusCheck => 0
  | .post _ _ => 0
  | .mkdirParents _ => 0
  | .fileWrite _ => 0

/-- Total seconds slept in an effect trace. -/
def sleepTotal (evs : List FxEvent) : Nat := (evs.map fxSleepSeconds).sum

/-! ## Definitions following the spec's words (for refinement
comparisons against the embedded code) -/

/-- Follows the spec's words in §4.4 and claim C4: a subject is derived
when the extension-stripped name has at least 3 whitespace tokens, the
first equal (case-insensitively) to the *configured pattern token* and
the last to the fixed suffix token `self`; the subject is the
space-joined middle tokens. -/
def spec_derive_subject (pattern_token filename : String) : Option String :=
  let parts := pySplit (pyStem filename)
  match parts with
  | [] => none
  | p0 :: rest =>
    match rest.getLast? with
    | none => none
    | some plast =>
      if 3 ≤ parts.length ∧ lowerStr p0 = lowerStr pattern_token ∧
          lowerStr plast = "self" then
        some (joinSpaces rest.dropLast)
      else none

/-- Follows the spec's words in §4.7 and claim C5: with a positive
delay the orchestrator sleeps after every processed image except the
last image of the whole batch. -/
def spec_sleep_count (folders : List (List String)) (delay : Int) : Nat :=
  if 0 < delay then (folders.map List.length).sum - 1 else 0

/-! ## Concrete environments used to evaluate the pipeline -/

/-- An environment in which every external step succeeds: the driver
video exists and encodes, the image reads as a 1280×720 RGB picture,
encoding yields a data URI, submission returns a task id, the first
poll reports `SUCCEEDED` with a URL, and the download returns 200. -/
def envHappy : GenEnv :=
  { driverExists := true
  , driverEncoded := some "DRIVER_URI"
  , readImage := fun _ => some ⟨1280, 720, "RGB"⟩
  , encodeImage := fun _ => some "CHAR_URI"
  , postResponse := some "task-1"
  , taskStatus := fun _ => .succeeded (some "http://video")
  , downloadOk := true }

/-- Like `envHappy` except every `Image.open` raises (unreadable or
corrupt file), so resizing falls back to the original path; the task
never reaches a terminal status. -/
def envUnreadable : GenEnv :=
  { driverExists := true
  , driverEncoded := some "DRIVER_URI"
  , readImage := fun _ => none
  , encodeImage := fun _ => some "CHAR_URI"
  , postResponse := some "task-1"
  , taskStatus := fun _ => .running
  , downloadOk := true }

/-! ## Batch loop lemmas -/

theorem ratAbs_eq_abs (q : ℚ) : ratAbs q = |q| := by
  unfold ratAbs
  rcases lt_or_le q 0 with h | h
  · rw [if_pos h, abs_of_neg h]
  · rw [if_neg (not_lt.mpr h), abs_of_nonneg h]

theorem process_folder_loop_counts (gen : String → Option String)
    (delay : Int) (n : Nat) :
    ∀ (files : List String) (i : Nat),
      (process_folder_loop gen delay n i files).1.1 +
        (process_folder_loop gen delay n i files).1.2 = files.length ∧
      ((process_folder_loop gen delay n i files).2.countP isProcessedEvent
        = files.length) := by
  intro files
  induction files with
  | nil => intro i; simp [process_folder_loop]
  | cons f rest ih =>
    intro i
    obtain ⟨h1, h2⟩ := ih (i + 1)
    simp only [process_folder_loop, List.length_cons, List.countP_cons,
      List.countP_append, List.countP_nil, isProcessedEvent, h2]
    refine ⟨?_, ?_⟩
    · split_ifs <;> omega
    · split_ifs <;> simp_all [isProcessedEvent]

theorem process_folder_loop_sleeps (gen : String → Option String)
    (delay : Int) (n : Nat) :
    ∀ (files : List String) (i : Nat),
      (process_folder_loop gen delay n i files).2.countP isSleepEvent
        = if 0 < delay then min files.length (n - i) else 0 := by
  intro files
  induction files with
  | nil => intro i; by_cases hd : 0 < delay <;> simp [process_folder_loop, hd]
  | cons f rest ih =>
    intro i
    have h2 := ih (i + 1)
    simp only [process_folder_loop, List.countP_cons, List.countP_append,
      List.countP_nil, List.length_cons, isSleepEvent, h2]
    rw [Nat.min_def, Nat.min_def]
    split_ifs <;> simp_all [isSleepEvent] <;>
      first
      | omega
      | exact List.eq_nil_of_length_eq_zero (by omega)

/-- C1 --- for every batch run, every eligible image is processed
exactly once (a per-image failure only increments the failed counter
and the loop continues), so `succeeded + failed` equals the number of
eligible images. -/
theorem c1_failures_never_abort_batch (gen : String → Option String)
    (folders : List (List String)) (delay : Int) :
    (process_all_images gen folders delay).1.succeeded +
      (process_all_images gen folders delay).1.failed =
      (process_all_images gen folders delay).1.total_images ∧
    (process_all_images gen folders delay).1.total_images =
      (folders.map List.length).sum ∧
    ((process_all_images gen folders delay).2.countP isProcessedEvent
      = (folders.map List.length).sum) := by
  induction folders with
  | nil => simp [process_all_images]
  | cons files rest ih =>
    obtain ⟨h1, h2, h3⟩ := ih
    obtain ⟨g1, g2⟩ := process_folder_loop_counts gen delay files.length files 1
    simp only [process_all_images, List.map_cons, List.sum_cons,
      List.countP_append]
    refine ⟨by omega, by omega, by omega⟩

/-- C5 (amended) --- with a positive delay the orchestrator sleeps after
every image except the last image *of each folder's eligible list* (not
of the whole batch); with `delay ≤ 0` it never sleeps. -/
theorem c5_sleep_after_each_image_except_folder_last
    (gen : String → Option String) (folders : List (List String))
    (delay : Int) :
    (process_all_images gen folders delay).2.countP isSleepEvent
      = if 0 < delay then (folders.map (fun l => l.length - 1)).sum
        else 0 := by
  induction folders with
  | nil => by_cases hd : 0 < delay <;> simp [process_all_images, hd]
  | cons files rest ih =>
    have h1 := process_folder_loop_sleeps gen delay files.length files 1
    simp only [process_all_images, List.countP_append, List.map_cons,
      List.sum_cons, ih, h1]
    by_cases hd : 0 < delay
    · simp only [hd, if_true]
      rw [Nat.min_def]
      split_ifs <;> omega
    · simp [hd]

/-- C5 counterexample --- the claim as stated is false: with two
folders of one image each and `delay = 1`, the last image of the first
folder is not the last of the whole batch, so the claim predicts one
sleep, but the code sleeps zero times (the skip is per folder). -/
theorem c5_counterexample :
    ((process_all_images (fun _ => none) [["a"], ["b"]] 1).2.countP
        isSleepEvent = 0) ∧
      spec_sleep_count [["a"], ["b"]] 1 = 1 := by
  decide

/-! ## Duplicate detection -/

/-- C2 --- `check_existing_videos` returns true exactly when some file
under the search root has a video extension and every whitespace token
of the subject name occurs, uppercased, in its uppercased stem. -/
theorem c2_duplicate_iff_matching_video (name : String)
    (files : List String) :
    check_existing_videos name files = true ↔
      ∃ vf ∈ files,
        (∃ ext ∈ video_extensions, strEndsWith ext (pathBasename vf) = true) ∧
        ∀ part ∈ pySplit name,
          strContains (upperStr part) (upperStr (pyStem vf)) = true := by
  unfold check_existing_videos
  simp only [List.any_eq_true, Bool.and_eq_true, List.all_eq_true]
  constructor
  · rintro ⟨ext, hext, vf, hvf, hend, hparts⟩
    exact ⟨vf, hvf, ⟨ext, hext, hend⟩, hparts⟩
  · rintro ⟨vf, hvf, ⟨ext, hext, hend⟩, hparts⟩
    exact ⟨ext, hext, vf, hvf, hend, hparts⟩

/-! ## Subject derivation (C4) -/

/-- C4 counterexample --- with the configured pattern token `selfie`
the claim predicts that `selfie JANE DOE self.jpg` yields the subject
`JANE DOE`, but the code compares the first token against the fixed
literal `genx` and derives no subject. -/
theorem c4_counterexample :
    spec_derive_subject "selfie" "selfie JANE DOE self.jpg"
        = some "JANE DOE" ∧
      extract_name_from_genx_filename "selfie JANE DOE self.jpg" = none := by
  decide

/-- C4 (amended) --- a subject is derived iff the extension-stripped
name splits into at least 3 whitespace tokens whose first equals the
fixed literal token `genx` (not the configured pattern token) and whose
last equals the fixed suffix `self`, case-insensitively, the subject
being the space-joined middle tokens; and a pattern-matching image file
from which no subject can be derived is included in the eligible list
unconditionally, its duplicate check skipped. -/
theorem c4_subject_requires_fixed_genx_token :
    (∀ filename : String,
        extract_name_from_genx_filename filename =
          spec_derive_subject "genx" filename) ∧
    (∀ (files videos : List String) (pat : String) (ex : Bool) (f : String),
        extract_name_from_genx_filename (pathBasename f) = none →
        (f ∈ get_genx_image_files files videos pat ex ↔
          f ∈ files ∧
            image_extensions.contains (lowerStr (pySuffix f)) = true ∧
            (if ex then runway_exact_match pat (pathBasename f)
             else strContains (lowerStr pat) (lowerStr (pathBasename f)))
              = true)) := by
  constructor
  · intro filename
    have hg : lowerStr "genx" = "genx" := by decide
    unfold extract_name_from_genx_filename spec_derive_subject
    rw [hg]
  · intro files videos pat ex f hnone
    simp only [get_genx_image_files, List.mem_filter, hnone,
      Bool.and_eq_true, and_assoc, and_true]

/-! ## Exact-match pattern ambiguity (C8) -/

/-- C8 counterexample --- in exact-match mode the claim asserts that
`person-selfie.jpg` matches pattern `-selfie`, but the exact-match
regex used by `get_genx_image_files` requires the character before the
pattern to be non-alphanumeric (or string start), so at that call site
the file does not match and is excluded from the eligible list. -/
theorem c8_counterexample :
    runway_exact_match "-selfie" "person-selfie.jpg" = false ∧
      get_genx_image_files ["person-selfie.jpg"] [] "-selfie" true = [] := by
  decide

/-- C8 (amended) --- the two exact-match implementations disagree:
`GUISelectors._matches_pattern` matches `person-selfie.jpg` and rejects
`selfie-vacation.jpg`, as the claim states, while the exact-match regex
of `get_genx_image_files` rejects both filenames. -/
theorem c8_exact_match_depends_on_call_site :
    gui_matches_pattern "person-selfie.jpg" "-selfie" true = true ∧
    gui_matches_pattern "selfie-vacation.jpg" "-selfie" true = false ∧
    runway_exact_match "-selfie" "person-selfie.jpg" = false ∧
    runway_exact_match "-selfie" "selfie-vacation.jpg" = false := by
  decide

/-! ## Fixed-ratio mode (C3) -/

section RatKernelEval

attribute [local semireducible] Rat.mul Rat.add Rat.sub Rat.inv

/-- C3 --- the smart half of the claim holds: the downloaded artifact
lands at `outputFolder/<stem>_act_two_<ratio with ':' -> 'x'>.mp4`, the
output folder is created first, and that path is returned.  But in
fixed-ratio mode — for the known name `16:9` just as for an unknown
name — the generation returns `None` without posting, writing or even
resizing anything, because the fixed-mode `target_ratio` dict lacks the
`name` key that line 443 reads (`KeyError`, swallowed by the blanket
handler).  The environment makes every external step succeed, so the
failure is the code's own. -/
theorem c3_fixed_ratio_mode_always_fails :
    create_act_two_generation envHappy "img.jpg" "out"
        { aspect_ratio_mode := "fixed", fixed_aspect_ratio := "16:9" }
      = (none, []) ∧
    create_act_two_generation envHappy "img.jpg" "out"
        { aspect_ratio_mode := "fixed", fixed_aspect_ratio := "7:5" }
      = (none, []) ∧
    create_act_two_generation envHappy "img.jpg" "out" { } =
      (some "out/img_act_two_16x9.mp4",
       [.post "CHAR_URI" "1280:720", .sleep 10, .statusCheck,
        .mkdirParents "out", .fileWrite "out/img_act_two_16x9.mp4"]) := by
  decide

/-! ## Poll loop bounds (C9) -/

theorem poll_for_completion_bounds (status : Nat → TaskStatus) (dl : Bool)
    (f p : String) :
    ∀ (fuel k : Nat),
      ((poll_for_completion status dl f p k fuel).2.countP isStatusCheck
        ≤ fuel) ∧
      sleepTotal (poll_for_completion status dl f p k fuel).2 =
        poll_interval_seconds *
          ((poll_for_completion status dl f p k fuel).2.countP isStatusCheck) ∧
      ((∀ j, k ≤ j → j < k + fuel → status j = .running) →
        (poll_for_completion status dl f p k fuel).1 = .timedOut) := by
  intro fuel
  induction fuel with
  | zero => intro k; simp [poll_for_completion, sleepTotal]
  | succ n ih =>
    intro k
    obtain ⟨h1, h2, h3⟩ := ih (k + 1)
    cases hs : status k with
    | httpError =>
      refine ⟨?_, ?_, fun hall => ?_⟩
      · simp [poll_for_completion, hs, isStatusCheck, List.countP_cons]
      · simp [poll_for_completion, hs, sleepTotal, isStatusCheck,
          fxSleepSeconds, poll_interval_seconds, List.countP_cons]
      · have hkk := hall k (Nat.le_refl k) (by omega)
        rw [hs] at hkk
        exact TaskStatus.noConfusion hkk
    | succeeded out =>
      cases out with
      | none =>
        refine ⟨?_, ?_, fun hall => ?_⟩
        · simp [poll_for_completion, hs, isStatusCheck, List.countP_cons]
        · simp [poll_for_completion, hs, sleepTotal, isStatusCheck,
            fxSleepSeconds, poll_interval_seconds, List.countP_cons]
        · have hkk := hall k (Nat.le_refl k) (by omega)
          rw [hs] at hkk
          exact TaskStatus.noConfusion hkk
      | some url =>
        cases dl with
        | false =>
          refine ⟨?_, ?_, fun hall => ?_⟩
          · simp [poll_for_completion, hs, isStatusCheck, List.countP_cons]
          · simp [poll_for_completion, hs, sleepTotal, isStatusCheck,
              fxSleepSeconds, poll_interval_seconds, List.countP_cons]
          · have hkk := hall k (Nat.le_refl k) (by omega)
            rw [hs] at hkk
            exact TaskStatus.noConfusion hkk
        | true =>
          refine ⟨?_, ?_, fun hall => ?_⟩
          · simp [poll_for_completion, hs, isStatusCheck, List.countP_cons]
          · simp [poll_for_completion, hs, sleepTotal, isStatusCheck,
              fxSleepSeconds, poll_interval_seconds, List.countP_cons]
          · have hkk := hall k (Nat.le_refl k) (by omega)
            rw [hs] at hkk
            exact TaskStatus.noConfusion hkk
    | failedStatus =>
      refine ⟨?_, ?_, fun hall => ?_⟩
      · simp [poll_for_completion, hs, isStatusCheck, List.countP_cons]
      · simp [poll_for_completion, hs, sleepTotal, isStatusCheck,
          fxSleepSeconds, poll_interval_seconds, List.countP_cons]
      · have hkk := hall k (Nat.le_refl k) (by omega)
        rw [hs] at hkk
        exact TaskStatus.noConfusion hkk
    | running =>
      refine ⟨?_, ?_, fun hall => ?_⟩
      · simp [poll_for_completion, hs, List.countP_cons, isStatusCheck]
        omega
      · have h2' := h2
        simp only [sleepTotal, poll_interval_seconds] at h2'
        simp [poll_for_completion, hs, sleepTotal, List.map_cons,
          List.sum_cons, fxSleepSeconds, List.countP_cons, isStatusCheck,
          poll_interval_seconds]
        omega
      · simp only [poll_for_completion, hs]
        exact h3 (fun j hj1 hj2 => hall j (by omega) (by omega))

/-- C9 --- the poll loop checks the task at 10-second intervals, at
most `600 / 10 = 60` times for at most 600 seconds of total sleep, and
when no poll within that bound reports a terminal status the loop exits
through the timeout branch instead of looping forever. -/
theorem c9_poll_bounded_with_timeout (status : Nat → TaskStatus)
    (dl : Bool) (f p : String) :
    max_wait / poll_interval_seconds = 60 ∧
    ((poll_for_completion status dl f p 0
        (max_wait / poll_interval_seconds)).2.countP isStatusCheck ≤ 60) ∧
    sleepTotal (poll_for_completion status dl f p 0
        (max_wait / poll_interval_seconds)).2 ≤ max_wait ∧
    ((∀ k < 60, status k = TaskStatus.running) →
      (poll_for_completion status dl f p 0
          (max_wait / poll_interval_seconds)).1 = PollOutcome.timedOut) := by
  have h60 : max_wait / poll_interval_seconds = 60 := by decide
  obtain ⟨h1, h2, h3⟩ := poll_for_completion_bounds status dl f p 60 0
  rw [h60]
  refine ⟨rfl, h1, ?_, ?_⟩
  · rw [h2]
    calc poll_interval_seconds *
        ((poll_for_completion status dl f p 0 60).2.countP isStatusCheck)
        ≤ poll_interval_seconds * 60 := Nat.mul_le_mul_left _ h1
      _ = max_wait := by decide
  · intro hall
    exact h3 (fun j _ hj => hall j (by omega))

/-- C9 witness --- a status oracle that never reaches a terminal state
makes the loop exit with the timeout outcome. -/
theorem c9_witness :
    (poll_for_completion (fun _ => TaskStatus.running) true "o" "p" 0
        (max_wait / poll_interval_seconds)).1 = PollOutcome.timedOut :=
  (c9_poll_bounded_with_timeout (fun _ => TaskStatus.running) true "o" "p").2.2.2
    (fun _ _ => rfl)

/-! ## Resize failure falls back to the original image (C10) -/

/-- C10 --- when `Image.open` raises, `resize_image_smart` returns the
original path unchanged, and the pipeline (in its default smart mode,
where the unreadable image gets the fallback aspect 1.0 and hence the
1:1 profile) encodes that original path and submits it to the remote
API instead of failing the image. -/
theorem c10_resize_failure_submits_original (env : GenEnv)
    (imgPath outF : String) (d u t : String)
    (himg : env.readImage imgPath = none)
    (hdrv : env.driverExists = true)
    (henc : env.driverEncoded = some d)
    (hchar : env.encodeImage imgPath = some u)
    (hpost : env.postResponse = some t) :
    (∀ target : TargetRatio,
        resize_image_smart env.readImage imgPath target = (imgPath, none)) ∧
    ∃ evs, (create_act_two_generation env imgPath outF { }).2 =
        FxEvent.post u "960:960" :: evs := by
  have hres : ∀ target : TargetRatio,
      resize_image_smart env.readImage imgPath target = (imgPath, none) := by
    intro target
    cases htn : target.name <;> simp [resize_image_smart, himg, htn]
  refine ⟨hres, ?_⟩
  have hsel : select_best_ratio 1 = ⟨some "1:1", ⟨"960:960", 960, 960, 1⟩⟩ := by
    decide
  simp only [create_act_two_generation, hdrv, Bool.not_true, Bool.false_eq_true,
    if_false, henc, analyze_image_aspect_ratio, himg, hsel, hres, hchar, hpost]
  exact ⟨_, rfl⟩

/-- C10 witness --- the fallback pipeline at a concrete environment
whose image reads all fail. -/
theorem c10_witness :
    (∀ target : TargetRatio,
        resize_image_smart envUnreadable.readImage "img.jpg" target
          = ("img.jpg", none)) ∧
    ∃ evs,
      (create_act_two_generation envUnreadable "img.jpg" "out" { }).2 =
        FxEvent.post "CHAR_URI" "960:960" :: evs :=
  c10_resize_failure_submits_original envUnreadable "img.jpg" "out"
    "DRIVER_URI" "CHAR_URI" "task-1" rfl rfl rfl rfl rfl

/-! ## Smart resize (C6) -/

theorem smartCropBox_spec (w h : Nat) (hw : 1 ≤ w) (hh : 1 ≤ h)
    (aspect : ℚ) (ha : 0 < aspect) :
    ∃ left top right bottom,
      smartCropBox w h aspect = (left, top, right, bottom) ∧
      right ≤ w ∧ bottom ≤ h ∧ left ≤ right ∧ top ≤ bottom ∧
      left = (w - (right - left)) / 2 ∧ top = (h - (bottom - top)) / 2 := by
  have hh' : (0 : ℚ) < (h : ℚ) := by
    exact_mod_cast Nat.lt_of_lt_of_le Nat.zero_lt_one hh
  simp only [smartCropBox]
  by_cases hgt : (w : ℚ) / (h : ℚ) > aspect
  · rw [if_pos hgt]
    have h1 : (h : ℚ) * aspect < (w : ℚ) := by
      have := (lt_div_iff hh').mp hgt
      linarith [mul_comm aspect (h : ℚ)]
    have h3 : ⌊(h : ℚ) * aspect⌋ < (w : Int) := by
      rw [Int.floor_lt]
      push_cast
      exact h1
    have h4 : (⌊(h : ℚ) * aspect⌋).toNat ≤ w :=
      Int.toNat_le.mpr (le_of_lt h3)
    exact ⟨_, _, _, _, rfl, by omega, le_refl _, by omega, by omega,
      by omega, by omega⟩
  · rw [if_neg hgt]
    have h1 : (w : ℚ) ≤ aspect * (h : ℚ) := by
      have := (div_le_iff hh').mp (le_of_not_lt hgt)
      linarith [mul_comm aspect (h : ℚ)]
    have h2 : (w : ℚ) / aspect ≤ (h : ℚ) := by
      rw [div_le_iff ha]
      linarith [mul_comm aspect (h : ℚ)]
    have h3 : ⌊(w : ℚ) / aspect⌋ ≤ (h : Int) := by
      have := Int.floor_le_floor h2
      rwa [Int.floor_natCast] at this
    have h4 : (⌊(w : ℚ) / aspect⌋).toNat ≤ h := Int.toNat_le.mpr h3
    exact ⟨_, _, _, _, rfl, le_refl _, by omega, by omega, by omega,
      by omega, by omega⟩

/-- C6 --- for a readable image of any dimensions at least 1×1 and any
catalog profile, `resize_image_smart` saves an image of exactly
`(profile.width, profile.height)` in RGB mode, produced by an in-bounds
centered crop followed by a resize (no letterboxing: the crop box never
exceeds the source and nothing is padded). -/
theorem c6_resize_exact_dimensions (w h : Nat) (hw : 1 ≤ w) (hh : 1 ≤ h)
    (mode : String) (nm : String) (cfg : RatioConfig)
    (hmem : (nm, cfg) ∈ AVAILABLE_RATIOS)
    (readImage : String → Option PILImage) (p : String)
    (hread : readImage p = some ⟨w, h, mode⟩) :
    ∃ left top right bottom,
      smartCropBox w h cfg.aspect = (left, top, right, bottom) ∧
      right ≤ w ∧ bottom ≤ h ∧ left ≤ right ∧ top ≤ bottom ∧
      left = (w - (right - left)) / 2 ∧ top = (h - (bottom - top)) / 2 ∧
      resize_image_smart readImage p ⟨some nm, cfg⟩ =
        ("temp_resized/" ++ pyStem p ++ "_" ++ colonToX nm ++ ".jpg",
         some ⟨cfg.width, cfg.height, "RGB"⟩) := by
  have ha : 0 < cfg.aspect := by
    fin_cases hmem <;> norm_num
  obtain ⟨left, top, right, bottom, hbox, hr, hb, hlr, htb, hcl, hct⟩ :=
    smartCropBox_spec w h hw hh cfg.aspect ha
  have hh0 : ¬ ((⟨w, h, mode⟩ : PILImage).height = 0) := by
    simp only [PILImage.height]
    omega
  refine ⟨left, top, right, bottom, hbox, hr, hb, hlr, htb, hcl, hct, ?_⟩
  by_cases hm : mode = "RGB" <;>
    simp [resize_image_smart, hread, hh0, pilConvertRGB, hm, hbox,
      pilCrop, pilResize]

/-- C6 witness --- a 1000×1000 RGBA source resized to the 16:9
profile. -/
theorem c6_witness :
    ∃ left top right bottom,
      smartCropBox 1000 1000
          (⟨"1280:720", 1280, 720, 16/9⟩ : RatioConfig).aspect
        = (left, top, right, bottom) ∧
      right ≤ 1000 ∧ bottom ≤ 1000 ∧ left ≤ right ∧ top ≤ bottom ∧
      left = (1000 - (right - left)) / 2 ∧
      top = (1000 - (bottom - top)) / 2 ∧
      resize_image_smart (fun _ => some ⟨1000, 1000, "RGBA"⟩) "photo.png"
          ⟨some "16:9", ⟨"1280:720", 1280, 720, 16/9⟩⟩ =
        ("temp_resized/" ++ pyStem "photo.png" ++ "_" ++ colonToX "16:9"
            ++ ".jpg",
         some ⟨(⟨"1280:720", 1280, 720, 16/9⟩ : RatioConfig).width,
           (⟨"1280:720", 1280, 720, 16/9⟩ : RatioConfig).height, "RGB"⟩) :=
  c6_resize_exact_dimensions 1000 1000 (by decide) (by decide) "RGBA"
    "16:9" ⟨"1280:720", 1280, 720, 16/9⟩ (by decide)
    (fun _ => some ⟨1000, 1000, "RGBA"⟩) "photo.png" rfl

/-! ## Best-ratio selection (C7) -/

theorem select_best_aux_first_min (a : ℚ) :
    ∀ (l : List (String × RatioConfig)) (p : String × RatioConfig),
      ∃ l₁ l₂ w,
        p :: l = l₁ ++ w :: l₂ ∧
        select_best_aux a l (p, ratAbs (a - p.2.aspect)) = w ∧
        (∀ q ∈ p :: l,
          ratAbs (a - w.2.aspect) ≤ ratAbs (a - q.2.aspect)) ∧
        (∀ q ∈ l₁,
          ratAbs (a - w.2.aspect) < ratAbs (a - q.2.aspect)) := by
  intro l
  induction l with
  | nil =>
    intro p
    refine ⟨[], [], p, rfl, rfl, ?_, ?_⟩
    · intro q hq
      rcases List.mem_cons.mp hq with hq | hq
      · subst hq; exact le_refl _
      · exact absurd hq (List.not_mem_nil q)
    · intro q hq
      exact absurd hq (List.not_mem_nil q)
  | cons q rest ih =>
    intro p
    by_cases hlt : ratAbs (a - q.2.aspect) < ratAbs (a - p.2.aspect)
    · obtain ⟨l₁, l₂, w, hdec, hsel, hmin, hstrict⟩ := ih q
      refine ⟨p :: l₁, l₂, w, ?_, ?_, ?_, ?_⟩
      · rw [List.cons_append, ← hdec]
      · simp only [select_best_aux]
        rw [if_pos hlt]
        exact hsel
      · intro x hx
        rcases List.mem_cons.mp hx with hx | hx
        · subst hx
          exact le_trans (hmin q (List.mem_cons_self _ _)) (le_of_lt hlt)
        · exact hmin x hx
      · intro x hx
        rcases List.mem_cons.mp hx with hx | hx
        · subst hx
          exact lt_of_le_of_lt (hmin q (List.mem_cons_self _ _)) hlt
        · exact hstrict x hx
    · obtain ⟨l₁, l₂, w, hdec, hsel, hmin, hstrict⟩ := ih p
      have hpq : ratAbs (a - p.2.aspect) ≤ ratAbs (a - q.2.aspect) :=
        le_of_not_lt hlt
      have hsel' :
          select_best_aux a (q :: rest) (p, ratAbs (a - p.2.aspect)) =
            select_best_aux a rest (p, ratAbs (a - p.2.aspect)) := by
        simp only [select_best_aux]
        rw [if_neg hlt]
      cases l₁ with
      | nil =>
        simp only [List.nil_append] at hdec
        obtain ⟨hpw, hrest⟩ := List.cons_eq_cons.mp hdec
        refine ⟨[], q :: rest, w, ?_, ?_, ?_, ?_⟩
        · rw [List.nil_append, ← hpw]
        · rw [hsel']; exact hsel
        · intro x hx
          rcases List.mem_cons.mp hx with hx | hx
          · subst hx
            exact hmin x (List.mem_cons_self _ _)
          · rcases List.mem_cons.mp hx with hx | hx
            · subst hx
              rw [← hpw]
              exact hpq
            · exact hmin x (List.mem_cons_of_mem _ (hrest ▸ hx))
        · intro x hx
          exact absurd hx (List.not_mem_nil x)
      | cons y t =>
        rw [List.cons_append] at hdec
        obtain ⟨hyp, hrest⟩ := List.cons_eq_cons.mp hdec
        subst hyp
        refine ⟨p :: q :: t, l₂, w, ?_, ?_, ?_, ?_⟩
        · rw [List.cons_append, List.cons_append, ← hrest]
        · rw [hsel']; exact hsel
        · intro x hx
          rcases List.mem_cons.mp hx with hx | hx
          · subst hx
            exact hmin x (List.mem_cons_self _ _)
          · rcases List.mem_cons.mp hx with hx | hx
            · subst hx
              exact le_trans
                (le_of_lt (hstrict p (List.mem_cons_self _ _))) hpq
            · exact hmin x (List.mem_cons_of_mem _ (hrest ▸ hx))
        · intro x hx
          rcases List.mem_cons.mp hx with hx | hx
          · subst hx
            exact hstrict x (List.mem_cons_self _ _)
          · rcases List.mem_cons.mp hx with hx | hx
            · subst hx
              exact lt_of_lt_of_le (hstrict p (List.mem_cons_self _ _)) hpq
            · exact hstrict x (List.mem_cons_of_mem _ hx)

/-- C7 --- `select_best_ratio` returns the catalog entry minimizing the
absolute difference to the requested aspect, ties broken by catalog
iteration order (every entry strictly before the winner is strictly
farther), and each catalog profile selects itself at its own aspect. -/
theorem c7_select_best_ratio_first_minimal (a : ℚ) :
    (∃ l₁ l₂ nm cfg,
        AVAILABLE_RATIOS = l₁ ++ (nm, cfg) :: l₂ ∧
        select_best_ratio a = ⟨some nm, cfg⟩ ∧
        (∀ pr ∈ AVAILABLE_RATIOS,
          |a - cfg.aspect| ≤ |a - pr.2.aspect|) ∧
        (∀ pr ∈ l₁, |a - cfg.aspect| < |a - pr.2.aspect|)) ∧
    (∀ pr ∈ AVAILABLE_RATIOS,
      select_best_ratio pr.2.aspect = ⟨some pr.1, pr.2⟩) := by
  have hAR : AVAILABLE_RATIOS =
      ("16:9", ⟨"1280:720", 1280, 720, 16/9⟩) ::
        [("9:16", ⟨"720:1280", 720, 1280, 9/16⟩),
         ("1:1", ⟨"960:960", 960, 960, 1⟩),
         ("4:3", ⟨"1104:832", 1104, 832, 4/3⟩),
         ("3:4", ⟨"832:1104", 832, 1104, 3/4⟩),
         ("21:9", ⟨"1584:672", 1584, 672, 21/9⟩)] := rfl
  constructor
  · obtain ⟨l₁, l₂, w, hdec, hsel, hmin, hstrict⟩ :=
      select_best_aux_first_min a
        [("9:16", ⟨"720:1280", 720, 1280, 9/16⟩),
         ("1:1", ⟨"960:960", 960, 960, 1⟩),
         ("4:3", ⟨"1104:832", 1104, 832, 4/3⟩),
         ("3:4", ⟨"832:1104", 832, 1104, 3/4⟩),
         ("21:9", ⟨"1584:672", 1584, 672, 21/9⟩)]
        ("16:9", ⟨"1280:720", 1280, 720, 16/9⟩)
    refine ⟨l₁, l₂, w.1, w.2, ?_, ?_, ?_, ?_⟩
    · rw [hAR]
      exact hdec
    · simp only [select_best_ratio, AVAILABLE_RATIOS]
      rw [hsel]
    · intro pr hpr
      rw [← ratAbs_eq_abs, ← ratAbs_eq_abs]
      rw [hAR] at hpr
      exact hmin pr hpr
    · intro pr hpr
      rw [← ratAbs_eq_abs, ← ratAbs_eq_abs]
      exact hstrict pr hpr
  · intro pr hpr
    fin_cases hpr <;> decide

/-- C7 witness --- the 1:1 profile selects itself at aspect 1. -/
theorem c7_witness :
    select_best_ratio ((⟨"960:960", 960, 960, 1⟩ : RatioConfig).aspect)
      = ⟨some "1:1", ⟨"960:960", 960, 960, 1⟩⟩ :=
  (c7_select_best_ratio_first_minimal 1).2
    ("1:1", ⟨"960:960", 960, 960, 1⟩) (by decide)

end RatKernelEval

/-- C4 witness --- the file `foo genx.jpg` matches the pattern but
yields no subject (only two tokens), so it is listed unconditionally. -/
theorem c4_witness :
    (extract_name_from_genx_filename "foo genx.jpg" =
      spec_derive_subject "genx" "foo genx.jpg") ∧
    ("foo genx.jpg" ∈ get_genx_image_files ["foo genx.jpg"] ["x.mp4"]
        "genx" false ↔
      "foo genx.jpg" ∈ ["foo genx.jpg"] ∧
        image_extensions.contains (lowerStr (pySuffix "foo genx.jpg"))
          = true ∧
        (if (false : Bool) then
            runway_exact_match "genx" (pathBasename "foo genx.jpg")
          else strContains (lowerStr "genx")
            (lowerStr (pathBasename "foo genx.jpg"))) = true) :=
  ⟨c4_subject_requires_fixed_genx_token.1 "foo genx.jpg",
   c4_subject_requires_fixed_genx_token.2 ["foo genx.jpg"] ["x.mp4"]
     "genx" false "foo genx.jpg" (by decide)⟩
